import Mathlib

set_option maxRecDepth 100000

/-
Shallow embedding of the adaptive rate-limiting and retry coordination
subsystem (class RateLimitHandler in app/rate_limit.py).

Modelling conventions:
- wall-clock instants and durations are rationals (Python floats and
  datetimes are real-valued); the model state carries an explicit clock
  field, and every sleep advances the clock by exactly the slept duration;
- the Python expression (t2 - t1).seconds on a timedelta is the sub-day
  seconds component of the difference, that is floor(t2 - t1) mod 86400;
- Python integers become Int or Nat (error_count only ever moves between
  0-floored decrements and increments, so Nat subtraction matches the
  source max(0, n - 1) exactly);
- the retry-stats dictionary becomes a function map from request ids;
- the cooperative retry loop (smart_retry) and the polling slot
  acquisition loop become fuel-indexed interpreters: a result of none
  means the fuel ran out before the source loop finished.
-/

/-- TokenUsage record: a timestamp paired with a token amount. -/
structure TokenUsage where
  timestamp : ℚ
  tokens : ℤ
deriving DecidableEq

/-- RetryStats record, one per request id (field order as in the source). -/
structure RetryStats where
  last_retry_time : ℚ
  retry_count : ℕ
  backoff_factor : ℚ
  success_streak : ℕ
deriving DecidableEq

/-- ServerStatus record for overload monitoring. -/
structure ServerStatus where
  last_check : ℚ
  is_overloaded : Bool
  error_count : ℕ
  last_error_time : Option ℚ
deriving DecidableEq

/-- Constructor-time configuration of RateLimitHandler (all immutable). -/
structure RateLimitConfig where
  tokens_per_minute : ℤ
  window_size : ℚ
  max_retries : ℕ
  initial_backoff : ℚ
  max_backoff : ℚ
  backoff_multiplier : ℚ
  max_concurrent : ℤ
  server_check_interval : ℤ

/-- Mutable state of a RateLimitHandler instance, plus the model clock. -/
structure RateLimitHandler where
  time : ℚ
  usage_history : List TokenUsage
  retry_stats : String → Option RetryStats
  peak_usage_times : List ℚ
  concurrent_requests : ℤ
  server_status : ServerStatus

/-- State of a freshly constructed handler at clock instant t0. -/
def fresh_handler (t0 : ℚ) : RateLimitHandler :=
  ⟨t0, [], fun _ => none, [], 0, ⟨t0, false, 0, none⟩⟩

/-- Advancing the model clock by d seconds (the effect of asyncio.sleep). -/
def sleep (d : ℚ) (st : RateLimitHandler) : RateLimitHandler :=
  { st with time := st.time + d }

/-- Sub-day seconds component of a timedelta of d seconds, as Python
computes timedelta.seconds: floor of the total seconds, modulo 86400. -/
def td_seconds (d : ℚ) : ℤ :=
  Int.floor d % 86400

/-- Loop of _cleanup_old_usage: pop expired records from the front while
the head is at least window_size old. -/
def cleanup_old_usage_list (now w : ℚ) : List TokenUsage → List TokenUsage
  | [] => []
  | u :: rest =>
    if w ≤ now - u.timestamp then cleanup_old_usage_list now w rest
    else u :: rest

/-- Method _cleanup_old_usage on the handler state. -/
def cleanup_old_usage (cfg : RateLimitConfig) (st : RateLimitHandler) :
    RateLimitHandler :=
  { st with usage_history :=
      cleanup_old_usage_list st.time cfg.window_size st.usage_history }

/-- Total of the token amounts in a usage list. -/
def usage_sum (l : List TokenUsage) : ℤ :=
  (l.map TokenUsage.tokens).sum

/-- Method get_current_usage: prune expired records, then return the sum
of the remaining token counts (value paired with the pruned state). -/
def get_current_usage (cfg : RateLimitConfig) (st : RateLimitHandler) :
    ℤ × RateLimitHandler :=
  let st1 := cleanup_old_usage cfg st
  (usage_sum st1.usage_history, st1)

/-- Method _update_usage_patterns: record a peak time when usage exceeds
80 percent of the quota, and drop peak times older than 24 hours. -/
def update_usage_patterns (cfg : RateLimitConfig) (st : RateLimitHandler) :
    RateLimitHandler :=
  let p := get_current_usage cfg st
  let st1 := p.2
  let peaks1 :=
    if (cfg.tokens_per_minute : ℚ) * (4 / 5) < (p.1 : ℚ) then
      st1.peak_usage_times ++ [st1.time]
    else st1.peak_usage_times
  { st1 with peak_usage_times :=
      peaks1.filter (fun t => decide (st1.time - t ≤ 86400)) }

/-- Method record_usage: append a usage record stamped with the current
time, prune, then update usage patterns. -/
def record_usage (cfg : RateLimitConfig) (tokens : ℤ)
    (st : RateLimitHandler) : RateLimitHandler :=
  update_usage_patterns cfg
    (cleanup_old_usage cfg
      { st with usage_history := st.usage_history ++ [⟨st.time, tokens⟩] })

/-- Method wait_if_needed: update patterns, prune and sum; when the usage
plus the requested tokens exceeds the quota and the pruned ledger is
nonempty, sleep until the oldest record leaves the window and re-prune.
Returns the waited duration paired with the resulting state. -/
def wait_if_needed (cfg : RateLimitConfig) (tokens : ℤ)
    (st : RateLimitHandler) : ℚ × RateLimitHandler :=
  let st1 := update_usage_patterns cfg st
  let p := get_current_usage cfg st1
  if cfg.tokens_per_minute < p.1 + tokens then
    match p.2.usage_history with
    | [] => (0, p.2)
    | u :: _ =>
      let wt := max 0 (cfg.window_size - (p.2.time - u.timestamp))
      if 0 < wt then (wt, cleanup_old_usage cfg (sleep wt p.2))
      else (0, p.2)
  else (0, p.2)

/-- Method can_make_request. -/
def can_make_request (cfg : RateLimitConfig) (tokens : ℤ)
    (st : RateLimitHandler) : Bool :=
  decide ((get_current_usage cfg st).1 + tokens ≤ cfg.tokens_per_minute)

/-- Method get_available_tokens. -/
def get_available_tokens (cfg : RateLimitConfig) (st : RateLimitHandler) : ℤ :=
  max 0 (cfg.tokens_per_minute - (get_current_usage cfg st).1)

/-- Method check_server_status. The guard re-evaluates only when at least
server_check_interval sub-day seconds passed since last_check, or while
overloaded. The decay and the overload formula mirror the source,
including the Python truthiness of time_since_error: a value of 0 makes
the recent-error disjunct falsy. Returns (healthy, new state). -/
def check_server_status (cfg : RateLimitConfig) (st : RateLimitHandler) :
    Bool × RateLimitHandler :=
  let ss := st.server_status
  if cfg.server_check_interval ≤ td_seconds (st.time - ss.last_check)
      ∨ ss.is_overloaded = true then
    let tse : Option ℤ := ss.last_error_time.map fun te => td_seconds (st.time - te)
    let ec1 : ℕ :=
      match tse with
      | some v => if 300 < v then ss.error_count - 1 else ss.error_count
      | none => ss.error_count
    let over1 : Bool :=
      decide (3 ≤ ec1) ||
        (match tse with
         | some v => decide (v ≠ 0) && decide (v < 60)
         | none => false)
    (!over1, { st with server_status := ⟨st.time, over1, ec1, ss.last_error_time⟩ })
  else (!ss.is_overloaded, st)

/-- Method record_error: only code 529 mutates the monitor. -/
def record_error (cfg : RateLimitConfig) (code : ℤ)
    (st : RateLimitHandler) : RateLimitHandler :=
  if code = 529 then
    { st with server_status :=
        ⟨st.server_status.last_check, true, st.server_status.error_count + 1,
         some st.time⟩ }
  else st

/-- Conditional error recording, as smart_retry does after probing the
exception for a status_code attribute: absent attribute means no call. -/
def record_error_opt (cfg : RateLimitConfig) (code : Option ℤ)
    (st : RateLimitHandler) : RateLimitHandler :=
  match code with
  | some c => record_error cfg c st
  | none => st

/-- Method release_slot: decrement concurrent_requests, floored at 0. -/
def release_slot (st : RateLimitHandler) : RateLimitHandler :=
  { st with concurrent_requests := max 0 (st.concurrent_requests - 1) }

/-- Method wait_for_available_slot as a fuel-indexed polling loop: while
the in-flight counter is at the cap, sleep one second and poll again;
otherwise increment it. Fuel exhaustion yields none. -/
def wait_for_available_slot (cfg : RateLimitConfig) :
    ℕ → RateLimitHandler → Option RateLimitHandler
  | 0, _ => none
  | fuel + 1, st =>
    if cfg.max_concurrent ≤ st.concurrent_requests then
      wait_for_available_slot cfg fuel (sleep 1 st)
    else some { st with concurrent_requests := st.concurrent_requests + 1 }

/-- Effect of one completed gate operation on the handler state: a
completed acquisition (the polling loop of wait_for_available_slot admits
the caller only once the counter is strictly below the cap, then
increments it) or a release (release_slot). -/
def gate_step (cfg : RateLimitConfig) (st : RateLimitHandler) :
    Bool → RateLimitHandler
  | true =>
    if st.concurrent_requests < cfg.max_concurrent then
      { st with concurrent_requests := st.concurrent_requests + 1 }
    else st
  | false => release_slot st

/-- Method _calculate_smart_backoff, staged exactly as the source: clamped
exponential base, then the peak-hours multiplier, then the server-status
multiplier, then the success-streak discount, then the floor. -/
def calculate_smart_backoff (cfg : RateLimitConfig) (st : RateLimitHandler)
    (rid : String) : ℚ :=
  match st.retry_stats rid with
  | none => cfg.initial_backoff
  | some stats =>
    let server_multiplier : ℚ := if st.server_status.is_overloaded then 2 else 1
    let backoff_reduction : ℚ := min (1 / 2) ((stats.success_streak : ℚ) * (1 / 10))
    let is_peak_time : Bool :=
      st.peak_usage_times.any fun peak => decide (st.time - peak ≤ 1800)
    let backoff0 : ℚ :=
      min (cfg.initial_backoff * cfg.backoff_multiplier ^ stats.retry_count)
        cfg.max_backoff
    let backoff1 : ℚ := if is_peak_time then backoff0 * (3 / 2) else backoff0
    let backoff2 : ℚ := backoff1 * server_multiplier
    let backoff3 : ℚ := backoff2 * (1 - backoff_reduction)
    max cfg.initial_backoff backoff3

/-- Reference formula for the backoff, written from the specification
text: when a RetryState exists, the clamped base is multiplied by the
peak multiplier, the health multiplier and the success-streak discount,
and the floor at initial_backoff is applied after the discount; with no
RetryState the result is initial_backoff. The peak test reads "now is
within 30 minutes of some recorded peak timestamp" as an absolute
distance. -/
def backoff_reference (cfg : RateLimitConfig) (st : RateLimitHandler)
    (rid : String) : ℚ :=
  match st.retry_stats rid with
  | none => cfg.initial_backoff
  | some stats =>
    max cfg.initial_backoff
      (min (cfg.initial_backoff * cfg.backoff_multiplier ^ stats.retry_count)
          cfg.max_backoff
        * (if st.peak_usage_times.any fun peak => decide (|st.time - peak| ≤ 1800)
           then 3 / 2 else 1)
        * (if st.server_status.is_overloaded then 2 else 1)
        * (1 - min (1 / 2) ((stats.success_streak : ℚ) * (1 / 10))))

/-- Outcome of one invocation of the wrapped operation: a returned value
or a raised exception. -/
inductive OpOutcome (α : Type) (ε : Type) where
  | ok (a : α)
  | raise (e : ε)

/-- Point update of the retry-stats map at one request id, applying a
function to the stored record (the id is always present at call sites). -/
def update_stats (rid : String) (f : RetryStats → RetryStats)
    (st : RateLimitHandler) : RateLimitHandler :=
  { st with retry_stats := fun x =>
      if x = rid then some (f ((st.retry_stats rid).getD ⟨0, 0, 1, 0⟩))
      else st.retry_stats x }

/-- Success-path statistics update of smart_retry: increment the streak,
reset the retry count, reset the backoff factor. -/
def stats_on_success (s : RetryStats) : RetryStats :=
  ⟨s.last_retry_time, 0, 1, s.success_streak + 1⟩

/-- Failure-path statistics update of smart_retry: increment the retry
count, reset the streak. -/
def stats_on_failure (s : RetryStats) : RetryStats :=
  ⟨s.last_retry_time, s.retry_count + 1, s.backoff_factor, 0⟩

/-- Loop body of smart_retry as a fuel-indexed interpreter. The arguments
are the remaining fuel, the number of operation invocations so far, and
the handler state; ops gives the outcome of the j-th invocation and scode
reads the optional status_code attribute of a raised exception. A some
result carries the outcome of the call (ok none models the implicit None
returned when the loop guard fails), the final state, and the total
number of invocations; none means the fuel ran out first. -/
def smart_retry_loop (cfg : RateLimitConfig) {α ε : Type}
    (scode : ε → Option ℤ) (ops : ℕ → OpOutcome α ε) (rid : String) :
    ℕ → ℕ → RateLimitHandler →
      Option (Except ε (Option α) × RateLimitHandler × ℕ)
  | 0, _, _ => none
  | fuel + 1, k, st =>
    let s := (st.retry_stats rid).getD ⟨0, 0, 1, 0⟩
    if cfg.max_retries < s.retry_count then some (Except.ok none, st, k)
    else
      let chk := check_server_status cfg st
      if chk.1 = true then
        match wait_for_available_slot cfg fuel chk.2 with
        | none => none
        | some st2 =>
          match ops k with
          | OpOutcome.ok a =>
            some (Except.ok (some a),
              release_slot (update_stats rid stats_on_success st2), k + 1)
          | OpOutcome.raise e =>
            let st4 := update_stats rid stats_on_failure (release_slot st2)
            let st5 := record_error_opt cfg (scode e) st4
            if cfg.max_retries < s.retry_count + 1 then
              some (Except.error e, st5, k + 1)
            else
              let st6 := sleep (calculate_smart_backoff cfg st5 rid) st5
              smart_retry_loop cfg scode ops rid fuel (k + 1)
                (update_stats rid (fun r => ⟨st6.time, r.retry_count,
                  r.backoff_factor, r.success_streak⟩) st6)
      else smart_retry_loop cfg scode ops rid fuel k (sleep 5 chk.2)

/-- Method smart_retry: create the RetryStats entry when absent, then run
the retry loop. -/
def smart_retry (cfg : RateLimitConfig) {α ε : Type}
    (scode : ε → Option ℤ) (ops : ℕ → OpOutcome α ε) (rid : String)
    (fuel : ℕ) (st : RateLimitHandler) :
    Option (Except ε (Option α) × RateLimitHandler × ℕ) :=
  let st1 :=
    if (st.retry_stats rid).isSome = true then st
    else { st with retry_stats := fun x =>
            if x = rid then some ⟨st.time, 0, 1, 0⟩ else st.retry_stats x }
  smart_retry_loop cfg scode ops rid fuel 0 st1

/-- Default constructor arguments of RateLimitHandler, with max_retries
set to 3 as in scenarios B and C. -/
def default_config3 : RateLimitConfig :=
  ⟨40000, 60, 3, 1, 60, 2, 5, 60⟩

/- Helper lemmas: which state components each operation preserves. -/

theorem check_server_status_retry_stats (cfg : RateLimitConfig)
    (st : RateLimitHandler) :
    (check_server_status cfg st).2.retry_stats = st.retry_stats := by
  unfold check_server_status
  dsimp only
  split <;> rfl

theorem check_server_status_time (cfg : RateLimitConfig)
    (st : RateLimitHandler) :
    (check_server_status cfg st).2.time = st.time := by
  unfold check_server_status
  dsimp only
  split <;> rfl

theorem sleep_retry_stats (d : ℚ) (st : RateLimitHandler) :
    (sleep d st).retry_stats = st.retry_stats := rfl

theorem release_slot_retry_stats (st : RateLimitHandler) :
    (release_slot st).retry_stats = st.retry_stats := rfl

theorem record_error_retry_stats (cfg : RateLimitConfig) (code : ℤ)
    (st : RateLimitHandler) :
    (record_error cfg code st).retry_stats = st.retry_stats := by
  unfold record_error
  split <;> rfl

theorem record_error_opt_retry_stats (cfg : RateLimitConfig) (code : Option ℤ)
    (st : RateLimitHandler) :
    (record_error_opt cfg code st).retry_stats = st.retry_stats := by
  cases code with
  | none => rfl
  | some c => exact record_error_retry_stats cfg c st

theorem wait_for_available_slot_retry_stats (cfg : RateLimitConfig) :
    ∀ (fuel : ℕ) (st st' : RateLimitHandler),
      wait_for_available_slot cfg fuel st = some st' →
      st'.retry_stats = st.retry_stats := by
  intro fuel
  induction fuel with
  | zero => intro st st' h; exact absurd h (by simp [wait_for_available_slot])
  | succ n ih =>
    intro st st' h
    rw [wait_for_available_slot] at h
    split at h
    · exact ih (sleep 1 st) st' h
    · cases h; rfl

theorem update_stats_at (rid : String) (f : RetryStats → RetryStats)
    (st : RateLimitHandler) :
    (update_stats rid f st).retry_stats rid =
      some (f ((st.retry_stats rid).getD ⟨0, 0, 1, 0⟩)) := by
  simp [update_stats]

theorem update_stats_peaks (rid : String) (f : RetryStats → RetryStats)
    (st : RateLimitHandler) :
    (update_stats rid f st).peak_usage_times = st.peak_usage_times := rfl

theorem update_stats_server (rid : String) (f : RetryStats → RetryStats)
    (st : RateLimitHandler) :
    (update_stats rid f st).server_status = st.server_status := rfl

theorem update_stats_time (rid : String) (f : RetryStats → RetryStats)
    (st : RateLimitHandler) :
    (update_stats rid f st).time = st.time := rfl

theorem list_any_decide_congr (l : List ℚ) (p q : ℚ → Prop)
    [DecidablePred p] [DecidablePred q] (h : ∀ x ∈ l, p x ↔ q x) :
    (l.any fun x => decide (p x)) = (l.any fun x => decide (q x)) := by
  induction l with
  | nil => rfl
  | cons a t ih =>
    simp only [List.any_cons]
    rw [decide_eq_decide.mpr (h a (by simp)),
      ih (fun x hx => h x (by simp [hx]))]

/-- Claim C6: _calculate_smart_backoff agrees with the reference formula of
the specification: initial_backoff when no RetryState exists, and otherwise
the clamped exponential base times the peak multiplier (1.5 when now is
within 30 minutes of a recorded peak timestamp), times the health
multiplier (2.0 when overloaded), times the success-streak discount
1 - min(0.5, streak * 0.1), floored at initial_backoff after the discount.
The hypothesis states that recorded peak timestamps are not in the future,
which record-time stamping guarantees; the embedded computation is a pure
function of the state and mutates nothing. -/
theorem backoff_matches_reference (cfg : RateLimitConfig)
    (st : RateLimitHandler) (rid : String)
    (hp : ∀ p ∈ st.peak_usage_times, p ≤ st.time) :
    calculate_smart_backoff cfg st rid = backoff_reference cfg st rid := by
  unfold calculate_smart_backoff backoff_reference
  cases hrs : st.retry_stats rid with
  | none => rfl
  | some s =>
    dsimp only
    have hany : (st.peak_usage_times.any fun peak => decide (|st.time - peak| ≤ 1800))
        = (st.peak_usage_times.any fun peak => decide (st.time - peak ≤ 1800)) := by
      refine list_any_decide_congr _ _ _ (fun x hx => ?_)
      rw [abs_of_nonneg (sub_nonneg.mpr (hp x hx))]
    rw [hany]
    split_ifs <;> congr 1 <;> ring

/-- Witness for C6 at a concrete input: empty peak list. -/
theorem backoff_matches_reference_witness :
    (∀ p ∈ (fresh_handler 0).peak_usage_times, p ≤ (fresh_handler 0).time) ∧
    calculate_smart_backoff default_config3 (fresh_handler 0) "req" =
      backoff_reference default_config3 (fresh_handler 0) "req" :=
  ⟨by simp [fresh_handler],
   backoff_matches_reference default_config3 (fresh_handler 0) "req"
     (by simp [fresh_handler])⟩

/-- Claim C7 (amended): with positive parameters, a backoff multiplier of
at least 1, and initial_backoff at most max_backoff * 2 * 1.5, the value
of _calculate_smart_backoff always lies in the interval
[initial_backoff, max_backoff * 2 * 1.5], and holding everything except
the stored retry_count fixed it is monotonically non-decreasing in
retry_count. Without the two extra hypotheses the claim fails, see the
counterexample. -/
theorem backoff_range_and_monotone (cfg : RateLimitConfig)
    (h0 : 0 < cfg.initial_backoff) (h1 : 0 < cfg.max_backoff)
    (h2 : 1 ≤ cfg.backoff_multiplier)
    (h3 : cfg.initial_backoff ≤ cfg.max_backoff * 2 * (3 / 2)) :
    (∀ st rid, cfg.initial_backoff ≤ calculate_smart_backoff cfg st rid ∧
        calculate_smart_backoff cfg st rid ≤ cfg.max_backoff * 2 * (3 / 2)) ∧
    (∀ (st : RateLimitHandler) (rid : String) (s : RetryStats) (r1 r2 : ℕ),
        r1 ≤ r2 →
        calculate_smart_backoff cfg
          (update_stats rid
            (fun _ => RetryStats.mk s.last_retry_time r1 s.backoff_factor
              s.success_streak) st) rid ≤
        calculate_smart_backoff cfg
          (update_stats rid
            (fun _ => RetryStats.mk s.last_retry_time r2 s.backoff_factor
              s.success_streak) st) rid) := by
  have hm0 : (0 : ℚ) ≤ cfg.backoff_multiplier := le_trans zero_le_one h2
  constructor
  · intro st rid
    unfold calculate_smart_backoff
    cases hrs : st.retry_stats rid with
    | none => exact ⟨le_refl _, h3⟩
    | some s =>
      dsimp only
      refine ⟨le_max_left _ _, max_le h3 ?_⟩
      have hb0a : (0 : ℚ) ≤
          min (cfg.initial_backoff * cfg.backoff_multiplier ^ s.retry_count)
            cfg.max_backoff :=
        le_min (mul_nonneg h0.le (pow_nonneg hm0 _)) h1.le
      have hb0b : min (cfg.initial_backoff * cfg.backoff_multiplier ^ s.retry_count)
          cfg.max_backoff ≤ cfg.max_backoff := min_le_right _ _
      have hr0 : (0 : ℚ) ≤ min (1 / 2) ((s.success_streak : ℚ) * (1 / 10)) :=
        le_min (by norm_num) (by positivity)
      have hr1 : min ((1 : ℚ) / 2) ((s.success_streak : ℚ) * (1 / 10)) ≤ 1 / 2 :=
        min_le_left _ _
      split_ifs <;> nlinarith [hb0a, hb0b, hr0, hr1]
  · intro st rid s r1 r2 hr
    unfold calculate_smart_backoff
    rw [update_stats_at, update_stats_at]
    simp only [update_stats_peaks, update_stats_server, update_stats_time]
    have hbase : min (cfg.initial_backoff * cfg.backoff_multiplier ^ r1)
        cfg.max_backoff ≤
        min (cfg.initial_backoff * cfg.backoff_multiplier ^ r2) cfg.max_backoff :=
      min_le_min (mul_le_mul_of_nonneg_left (pow_le_pow_right₀ h2 hr) h0.le)
        (le_refl _)
    have hr0 : (0 : ℚ) ≤ 1 - min (1 / 2) ((s.success_streak : ℚ) * (1 / 10)) := by
      have := min_le_left ((1 : ℚ) / 2) ((s.success_streak : ℚ) * (1 / 10))
      linarith
    split_ifs <;>
      refine max_le_max (le_refl _) ?_ <;>
        nlinarith [hbase, hr0]

/-- Configuration with all parameters positive but initial_backoff larger
than max_backoff * 2 * 1.5. -/
def cex_config_a : RateLimitConfig := ⟨1, 1, 1, 100, 1, 2, 1, 1⟩

/-- Configuration with all parameters positive but backoff multiplier
below 1. -/
def cex_config_b : RateLimitConfig := ⟨1, 1, 1, 1, 60, 1 / 2, 1, 1⟩

/-- Handler state holding a RetryStats entry with the given retry count,
during a peak window. -/
def cex_state_b (r : ℕ) : RateLimitHandler :=
  { fresh_handler 0 with
    peak_usage_times := [0],
    retry_stats := fun x =>
      if x = "req" then some (RetryStats.mk 0 r 1 0) else none }

/-- Counterexample to claim C7 as stated: under one all-positive
configuration the result exceeds max_backoff * 2 * 1.5 (the interval
bound fails), and under another all-positive configuration (multiplier
one half, during a peak window) the result strictly decreases when
retry_count rises from 0 to 1 (monotonicity fails). -/
theorem backoff_range_and_monotone_cex :
    (0 < cex_config_a.tokens_per_minute ∧ 0 < cex_config_a.window_size ∧
      0 < cex_config_a.max_retries ∧ 0 < cex_config_a.initial_backoff ∧
      0 < cex_config_a.max_backoff ∧ 0 < cex_config_a.backoff_multiplier ∧
      0 < cex_config_a.max_concurrent ∧ 0 < cex_config_a.server_check_interval) ∧
    cex_config_a.max_backoff * 2 * (3 / 2) <
      calculate_smart_backoff cex_config_a (fresh_handler 0) "req" ∧
    (0 < cex_config_b.tokens_per_minute ∧ 0 < cex_config_b.window_size ∧
      0 < cex_config_b.max_retries ∧ 0 < cex_config_b.initial_backoff ∧
      0 < cex_config_b.max_backoff ∧ 0 < cex_config_b.backoff_multiplier ∧
      0 < cex_config_b.max_concurrent ∧ 0 < cex_config_b.server_check_interval) ∧
    calculate_smart_backoff cex_config_b (cex_state_b 1) "req" <
      calculate_smart_backoff cex_config_b (cex_state_b 0) "req" := by
  with_unfolding_all decide

/-- Witness for the amended C7 at a concrete configuration. -/
theorem backoff_range_and_monotone_witness :
    ((0 : ℚ) < 1 ∧ (0 : ℚ) < 60 ∧ (1 : ℚ) ≤ 2 ∧ (1 : ℚ) ≤ 60 * 2 * (3 / 2)) ∧
    (1 ≤ calculate_smart_backoff default_config3 (fresh_handler 0) "req" ∧
      calculate_smart_backoff default_config3 (fresh_handler 0) "req" ≤
        60 * 2 * (3 / 2)) :=
  ⟨⟨by norm_num, by norm_num, by norm_num, by norm_num⟩,
    (backoff_range_and_monotone default_config3 (by norm_num [default_config3])
      (by norm_num [default_config3]) (by norm_num [default_config3])
      (by norm_num [default_config3])).1 (fresh_handler 0) "req"⟩

/-- Claim C10: when smart_retry is invoked for a request id whose stored
RetryState already has retry_count above max_retries, the while guard
fails immediately: the loop body is never entered, the operation is never
invoked (invocation count 0), nothing is raised, the state is returned
unchanged, and the call produces the implicit Python None (modelled as
Except.ok none). -/
theorem smart_retry_stale_state {α ε : Type} (cfg : RateLimitConfig)
    (scode : ε → Option ℤ) (ops : ℕ → OpOutcome α ε) (rid : String)
    (fuel : ℕ) (st : RateLimitHandler) (s : RetryStats)
    (hs : st.retry_stats rid = some s) (hrc : cfg.max_retries < s.retry_count) :
    smart_retry cfg scode ops rid (fuel + 1) st = some (Except.ok none, st, 0) := by
  unfold smart_retry
  rw [hs]
  simp only [Option.isSome_some, if_true]
  rw [smart_retry_loop, hs]
  simp only [Option.getD_some]
  rw [if_pos hrc]

/-- Handler state whose RetryState for request id req is already
exhausted (retry_count 4 with max_retries 3). -/
def stale_state : RateLimitHandler :=
  { fresh_handler 0 with
    retry_stats := fun x =>
      if x = "req" then some (RetryStats.mk 0 4 1 0) else none }

/-- Witness for C10 at a concrete exhausted state. -/
theorem smart_retry_stale_state_witness :
    stale_state.retry_stats "req" = some (RetryStats.mk 0 4 1 0) ∧
    default_config3.max_retries < 4 ∧
    smart_retry default_config3 (fun _ : Unit => (none : Option ℤ))
        (fun _ => (OpOutcome.raise () : OpOutcome Unit Unit)) "req" 1 stale_state =
      some (Except.ok none, stale_state, 0) :=
  ⟨rfl, by norm_num [default_config3],
    smart_retry_stale_state default_config3 _ _ "req" 0 stale_state
      (RetryStats.mk 0 4 1 0) rfl (by norm_num [default_config3])⟩

theorem td_seconds_nonneg (d : ℚ) : 0 ≤ td_seconds d :=
  Int.emod_nonneg _ (by norm_num)

theorem check_server_status_skip (cfg : RateLimitConfig)
    (st : RateLimitHandler)
    (h : ¬(cfg.server_check_interval ≤
        td_seconds (st.time - st.server_status.last_check)
      ∨ st.server_status.is_overloaded = true)) :
    check_server_status cfg st = (!st.server_status.is_overloaded, st) := by
  unfold check_server_status
  dsimp only
  rw [if_neg h]

theorem check_server_status_ret (cfg : RateLimitConfig)
    (st : RateLimitHandler) :
    (check_server_status cfg st).1 =
      !(check_server_status cfg st).2.server_status.is_overloaded := by
  unfold check_server_status
  dsimp only
  split <;> rfl

theorem check_server_status_lc (cfg : RateLimitConfig)
    (st : RateLimitHandler)
    (h : st.server_status.last_check ≤ st.time) :
    (check_server_status cfg st).2.server_status.last_check ≤
      (check_server_status cfg st).2.time := by
  unfold check_server_status
  dsimp only
  split
  · exact le_refl _
  · exact h

/-- State in which a 529 error was just recorded at time 5, so the
re-evaluation guard of check_server_status holds. -/
def overload_probe_state : RateLimitHandler :=
  record_error default_config3 529 (sleep 5 (fresh_handler 0))

/-- Claim C8 (amended): after a re-evaluation of check_server_status
(triggered when the sub-day seconds since last_check reach
server_check_interval, or while overloaded), the new error_count equals
the old one decremented by 1 floored at 0 exactly when the sub-day
seconds since the last error exceed 300 (unchanged otherwise, and always
non-negative since it is a natural number), the new is_overloaded holds
iff the new error_count is at least 3 or the sub-day seconds since the
last error are strictly between 0 and 60, and the returned boolean is the
negation of the new is_overloaded. Scenario: three record_error(529)
calls within 60 seconds set is_overloaded with error_count 3; a check 301
seconds after the last error decays error_count to 2 and clears
is_overloaded, returning healthy. The claim as literally stated fails at
a zero-second-old error, see the counterexample. -/
theorem check_status_reeval_amended :
    (∀ (cfg : RateLimitConfig) (st : RateLimitHandler),
      (cfg.server_check_interval ≤
          td_seconds (st.time - st.server_status.last_check)
        ∨ st.server_status.is_overloaded = true) →
      (check_server_status cfg st).2.server_status.error_count =
        (match st.server_status.last_error_time with
         | some te =>
           if 300 < td_seconds (st.time - te) then
             st.server_status.error_count - 1
           else st.server_status.error_count
         | none => st.server_status.error_count) ∧
      ((check_server_status cfg st).2.server_status.is_overloaded = true ↔
        (3 ≤ (check_server_status cfg st).2.server_status.error_count ∨
          (∃ te, st.server_status.last_error_time = some te ∧
            0 < td_seconds (st.time - te) ∧ td_seconds (st.time - te) < 60))) ∧
      (check_server_status cfg st).1 =
        !(check_server_status cfg st).2.server_status.is_overloaded) ∧
    (let st3 := record_error default_config3 529 (sleep 10
        (record_error default_config3 529 (sleep 10
          (record_error default_config3 529 (fresh_handler 0)))))
     st3.server_status.is_overloaded = true ∧
     st3.server_status.error_count = 3 ∧
     (check_server_status default_config3
        (sleep 301 st3)).2.server_status.error_count = 2 ∧
     (check_server_status default_config3
        (sleep 301 st3)).2.server_status.is_overloaded = false ∧
     (check_server_status default_config3 (sleep 301 st3)).1 = true) := by
  constructor
  · intro cfg st h
    refine ⟨?_, ?_, check_server_status_ret cfg st⟩
    · unfold check_server_status
      dsimp only
      rw [if_pos h]
      cases hle : st.server_status.last_error_time with
      | none => simp [hle]
      | some te => simp [hle]
    · unfold check_server_status
      dsimp only
      rw [if_pos h]
      cases hle : st.server_status.last_error_time with
      | none => simp [hle]
      | some te =>
        have h0 : 0 ≤ td_seconds (st.time - te) := td_seconds_nonneg _
        cases hd : decide (td_seconds (st.time - te) ≠ 0) <;>
          cases hd2 : decide (td_seconds (st.time - te) < 60) <;>
            simp_all <;> omega
  · with_unfolding_all decide

/-- Witness for the amended C8 at a concrete state with the guard true. -/
theorem check_status_reeval_amended_witness :
    (default_config3.server_check_interval ≤
        td_seconds (overload_probe_state.time -
          overload_probe_state.server_status.last_check)
      ∨ overload_probe_state.server_status.is_overloaded = true) ∧
    (check_server_status default_config3 overload_probe_state).1 =
      !(check_server_status default_config3
          overload_probe_state).2.server_status.is_overloaded :=
  ⟨Or.inr (by with_unfolding_all decide),
   (check_status_reeval_amended.1 default_config3 overload_probe_state
     (Or.inr (by with_unfolding_all decide))).2.2⟩

/-- Counterexample to claim C8 as stated: in overload_probe_state the 529
error occurred exactly 0 seconds before the check, so the claim requires
is_overloaded to remain true (error within the last 60 seconds), but the
re-evaluation sets it to false and reports the server healthy: the Python
expression (time_since_error and time_since_error < 60) is falsy when
time_since_error is 0. -/
theorem check_status_reeval_cex :
    overload_probe_state.server_status.last_error_time =
      some overload_probe_state.time ∧
    overload_probe_state.server_status.is_overloaded = true ∧
    overload_probe_state.server_status.error_count = 1 ∧
    (check_server_status default_config3
        overload_probe_state).2.server_status.is_overloaded = false ∧
    (check_server_status default_config3 overload_probe_state).1 = true := by
  with_unfolding_all decide

/-- Claim C9 (amended): when the first check_server_status call leaves
is_overloaded false, a second call strictly less than
server_check_interval seconds after the last_check instant recorded by
the first call (with the interval at most one day, the clock monotone and
last_check not in the future) does not re-evaluate, so it yields the same
is_overloaded value and the same returned boolean. The claim as stated,
for two calls within one interval of each other, fails while the monitor
is overloaded, because an overloaded monitor re-evaluates on every call:
see the counterexample. -/
theorem check_status_idempotent_amended (cfg : RateLimitConfig)
    (st : RateLimitHandler) (t2 : ℚ)
    (hint : cfg.server_check_interval ≤ 86400)
    (hlc : st.server_status.last_check ≤ st.time)
    (hover : (check_server_status cfg st).2.server_status.is_overloaded = false)
    (ht : (check_server_status cfg st).2.time ≤ t2)
    (hgap : t2 - (check_server_status cfg st).2.server_status.last_check <
      (cfg.server_check_interval : ℚ)) :
    (check_server_status cfg
        { (check_server_status cfg st).2 with time := t2 }).2.server_status.is_overloaded
      = (check_server_status cfg st).2.server_status.is_overloaded ∧
    (check_server_status cfg
        { (check_server_status cfg st).2 with time := t2 }).1
      = (check_server_status cfg st).1 := by
  have hlc2 : (check_server_status cfg st).2.server_status.last_check ≤ t2 :=
    le_trans (check_server_status_lc cfg st hlc) ht
  have h1 : (0 : ℚ) ≤ t2 - (check_server_status cfg st).2.server_status.last_check := by
    linarith
  have h2 : Int.floor (t2 - (check_server_status cfg st).2.server_status.last_check) <
      cfg.server_check_interval := Int.floor_lt.mpr hgap
  have h3 : (0 : ℤ) ≤
      Int.floor (t2 - (check_server_status cfg st).2.server_status.last_check) :=
    Int.floor_nonneg.mpr h1
  have h4 : td_seconds (t2 - (check_server_status cfg st).2.server_status.last_check) <
      cfg.server_check_interval := by
    unfold td_seconds
    rw [Int.emod_eq_of_lt h3 (lt_of_lt_of_le h2 hint)]
    exact h2
  have hskip : check_server_status cfg
      { (check_server_status cfg st).2 with time := t2 } =
      (!({ (check_server_status cfg st).2 with
            time := t2 } : RateLimitHandler).server_status.is_overloaded,
        { (check_server_status cfg st).2 with time := t2 }) := by
    apply check_server_status_skip
    intro hcon
    cases hcon with
    | inl hc => exact absurd hc (not_le.mpr h4)
    | inr hc => exact absurd hc (by simp [hover])
  rw [hskip]
  refine ⟨rfl, ?_⟩
  rw [check_server_status_ret cfg st]

/-- Witness for the amended C9 at a concrete healthy state. -/
theorem check_status_idempotent_amended_witness :
    ((default_config3.server_check_interval : ℤ) ≤ 86400 ∧
      (fresh_handler 0).server_status.last_check ≤ (fresh_handler 0).time ∧
      (check_server_status default_config3
        (fresh_handler 0)).2.server_status.is_overloaded = false ∧
      (check_server_status default_config3 (fresh_handler 0)).2.time ≤ 30 ∧
      (30 : ℚ) - (check_server_status default_config3
        (fresh_handler 0)).2.server_status.last_check <
          (default_config3.server_check_interval : ℚ)) ∧
    (check_server_status default_config3
        { (check_server_status default_config3 (fresh_handler 0)).2 with
          time := 30 }).1
      = (check_server_status default_config3 (fresh_handler 0)).1 :=
  ⟨⟨by with_unfolding_all decide, by with_unfolding_all decide,
    by with_unfolding_all decide, by with_unfolding_all decide,
    by with_unfolding_all decide⟩,
   (check_status_idempotent_amended default_config3 (fresh_handler 0) 30
     (by with_unfolding_all decide) (by with_unfolding_all decide)
     (by with_unfolding_all decide) (by with_unfolding_all decide)
     (by with_unfolding_all decide)).2⟩

/-- State in which a 529 error was recorded at time 0. -/
def c9_state : RateLimitHandler :=
  record_error default_config3 529 (fresh_handler 0)

/-- Counterexample to claim C9 as stated: after a 529 error at time 0, a
check at time 30 and a second check at time 70 lie within one
server_check_interval (40 < 60) of each other with no record_error call
between them, yet the first leaves is_overloaded true (returning false)
and the second leaves is_overloaded false (returning true): while
overloaded, every call re-evaluates, so the overload can clear between
two calls inside the same interval. -/
theorem check_status_idempotent_cex :
    (check_server_status default_config3
        (sleep 30 c9_state)).2.server_status.is_overloaded = true ∧
    (check_server_status default_config3 (sleep 30 c9_state)).1 = false ∧
    (check_server_status default_config3
        (sleep 40 (check_server_status default_config3
          (sleep 30 c9_state)).2)).2.server_status.is_overloaded = false ∧
    (check_server_status default_config3
        (sleep 40 (check_server_status default_config3
          (sleep 30 c9_state)).2)).1 = true ∧
    ((40 : ℚ) < (default_config3.server_check_interval : ℚ)) := by
  with_unfolding_all decide

/-- Trace of completed gate operations: true is a completed acquisition,
false is a release. -/
def run_gate (cfg : RateLimitConfig) :
    List Bool → RateLimitHandler → RateLimitHandler
  | [], st => st
  | op :: rest, st => run_gate cfg rest (gate_step cfg st op)

theorem run_gate_bounds (cfg : RateLimitConfig) (hm : 0 ≤ cfg.max_concurrent) :
    ∀ (ops : List Bool) (st : RateLimitHandler),
      0 ≤ st.concurrent_requests → st.concurrent_requests ≤ cfg.max_concurrent →
      0 ≤ (run_gate cfg ops st).concurrent_requests ∧
        (run_gate cfg ops st).concurrent_requests ≤ cfg.max_concurrent := by
  intro ops
  induction ops with
  | nil => intro st h0 h1; exact ⟨h0, h1⟩
  | cons op rest ih =>
    intro st h0 h1
    simp only [run_gate]
    cases op with
    | true =>
      by_cases hlt : st.concurrent_requests < cfg.max_concurrent
      · rw [show gate_step cfg st true =
            { st with concurrent_requests := st.concurrent_requests + 1 } from by
          unfold gate_step; rw [if_pos hlt]]
        refine ih _ ?_ ?_
        · show (0 : ℤ) ≤ st.concurrent_requests + 1
          omega
        · show st.concurrent_requests + 1 ≤ cfg.max_concurrent
          omega
      · rw [show gate_step cfg st true = st from by
          unfold gate_step; rw [if_neg hlt]]
        exact ih st h0 h1
    | false =>
      refine ih _ ?_ ?_
      · show (0 : ℤ) ≤ max 0 (st.concurrent_requests - 1)
        exact le_max_left _ _
      · show max 0 (st.concurrent_requests - 1) ≤ cfg.max_concurrent
        exact max_le hm (by omega)

/-- Claim C5: for every interleaving of completed acquisitions and
releases, the in-flight counter stays within [0, max_concurrent]: a
completed wait_for_available_slot increments the counter only from
strictly below the cap (first conjunct, about the polling loop itself),
and release_slot floors at 0, so any trace of gate steps from a fresh
handler keeps the counter in range (second conjunct, for a non-negative
cap). -/
theorem gate_in_flight_bounds (cfg : RateLimitConfig) :
    (∀ (fuel : ℕ) (st st' : RateLimitHandler),
      wait_for_available_slot cfg fuel st = some st' →
      st'.concurrent_requests ≤ cfg.max_concurrent) ∧
    (0 ≤ cfg.max_concurrent → ∀ (t0 : ℚ) (ops : List Bool),
      0 ≤ (run_gate cfg ops (fresh_handler t0)).concurrent_requests ∧
      (run_gate cfg ops (fresh_handler t0)).concurrent_requests ≤
        cfg.max_concurrent) := by
  constructor
  · intro fuel
    induction fuel with
    | zero =>
      intro st st' h
      exact absurd h (by simp [wait_for_available_slot])
    | succ n ih =>
      intro st st' h
      rw [wait_for_available_slot] at h
      split at h
      · exact ih (sleep 1 st) st' h
      · cases h
        simp
        omega
  · intro hm t0 ops
    exact run_gate_bounds cfg hm ops (fresh_handler t0) le_rfl hm

/-- Witness for C5 at a concrete trace and a concrete completed
acquisition. -/
theorem gate_in_flight_bounds_witness :
    (wait_for_available_slot default_config3 1 (fresh_handler 0) =
        some { fresh_handler 0 with concurrent_requests := 1 } ∧
      ({ fresh_handler 0 with
          concurrent_requests := 1 } : RateLimitHandler).concurrent_requests ≤
        default_config3.max_concurrent) ∧
    ((0 : ℤ) ≤ default_config3.max_concurrent ∧
      0 ≤ (run_gate default_config3 [true, true, false, false, false]
        (fresh_handler 0)).concurrent_requests ∧
      (run_gate default_config3 [true, true, false, false, false]
        (fresh_handler 0)).concurrent_requests ≤
          default_config3.max_concurrent) := by
  have hm : (0 : ℤ) ≤ default_config3.max_concurrent := by
    norm_num [default_config3]
  have heq : wait_for_available_slot default_config3 1 (fresh_handler 0) =
      some { fresh_handler 0 with concurrent_requests := 1 } := by
    with_unfolding_all rfl
  exact ⟨⟨heq, (gate_in_flight_bounds default_config3).1 1 _ _ heq⟩,
    hm, ((gate_in_flight_bounds default_config3).2 hm 0 _).1,
    ((gate_in_flight_bounds default_config3).2 hm 0 _).2⟩

/-- Environment operation against the usage ledger: let wall-clock time
advance, or call record_usage. -/
inductive LedgerOp where
  | advance (d : ℚ)
  | record (tokens : ℤ)

/-- Execution of a sequence of ledger operations. -/
def run_ledger (cfg : RateLimitConfig) :
    List LedgerOp → RateLimitHandler → RateLimitHandler
  | [], st => st
  | LedgerOp.advance d :: rest, st => run_ledger cfg rest (sleep d st)
  | LedgerOp.record n :: rest, st => run_ledger cfg rest (record_usage cfg n st)

/-- Ghost log of all records ever made by a sequence of ledger
operations starting at clock instant t. -/
def ledger_log (t : ℚ) : List LedgerOp → List TokenUsage
  | [] => []
  | LedgerOp.advance d :: rest => ledger_log (t + d) rest
  | LedgerOp.record n :: rest => ⟨t, n⟩ :: ledger_log t rest

/-- Final clock instant of a sequence of ledger operations started at t. -/
def end_time (t : ℚ) : List LedgerOp → ℚ
  | [] => t
  | LedgerOp.advance d :: rest => end_time (t + d) rest
  | LedgerOp.record _ :: rest => end_time t rest

theorem record_usage_time (cfg : RateLimitConfig) (n : ℤ)
    (st : RateLimitHandler) : (record_usage cfg n st).time = st.time := rfl

theorem update_usage_patterns_history (cfg : RateLimitConfig)
    (st : RateLimitHandler) :
    (update_usage_patterns cfg st).usage_history =
      cleanup_old_usage_list st.time cfg.window_size st.usage_history := rfl

theorem cleanup_eq_filter (now w : ℚ) :
    ∀ l : List TokenUsage,
      l.Pairwise (fun a b => a.timestamp ≤ b.timestamp) →
      cleanup_old_usage_list now w l =
        l.filter (fun u => decide (now - u.timestamp < w)) := by
  intro l
  induction l with
  | nil => intro _; rfl
  | cons u rest ih =>
    intro hpw
    rw [List.pairwise_cons] at hpw
    rw [cleanup_old_usage_list]
    by_cases hu : w ≤ now - u.timestamp
    · rw [if_pos hu, ih hpw.2, List.filter_cons_of_neg (by simpa using hu)]
    · rw [if_neg hu, List.filter_cons_of_pos (by simpa using hu)]
      rw [List.filter_eq_self.mpr]
      intro b hb
      have := hpw.1 b hb
      simp only [decide_eq_true_iff]
      push_neg at hu
      linarith

theorem filter_young_compose (t1 t2 w : ℚ) (h : t1 ≤ t2)
    (l : List TokenUsage) :
    (l.filter (fun u => decide (t1 - u.timestamp < w))).filter
      (fun u => decide (t2 - u.timestamp < w)) =
    l.filter (fun u => decide (t2 - u.timestamp < w)) := by
  induction l with
  | nil => rfl
  | cons u rest ih =>
    by_cases h1 : t1 - u.timestamp < w
    · by_cases h2 : t2 - u.timestamp < w
      · rw [List.filter_cons_of_pos (by simpa using h1),
          List.filter_cons_of_pos (by simpa using h2),
          List.filter_cons_of_pos (by simpa using h2), ih]
      · rw [List.filter_cons_of_pos (by simpa using h1),
          List.filter_cons_of_neg (by simpa using h2),
          List.filter_cons_of_neg (by simpa using h2), ih]
    · have h2 : ¬ t2 - u.timestamp < w := by linarith
      rw [List.filter_cons_of_neg (by simpa using h1),
        List.filter_cons_of_neg (by simpa using h2), ih]

/-- Invariant linking the handler state with the ghost log: the log is
chronological, stamped no later than now, and the stored history is the
log filtered by youth at some past instant. -/
def ledger_inv (w : ℚ) (st : RateLimitHandler)
    (log : List TokenUsage) : Prop :=
  log.Pairwise (fun a b => a.timestamp ≤ b.timestamp) ∧
  (∀ u ∈ log, u.timestamp ≤ st.time) ∧
  ∃ t1, t1 ≤ st.time ∧
    st.usage_history = log.filter (fun u => decide (t1 - u.timestamp < w))

theorem ledger_inv_sleep (w d : ℚ) (hd : 0 ≤ d) (st : RateLimitHandler)
    (log : List TokenUsage) (h : ledger_inv w st log) :
    ledger_inv w (sleep d st) log := by
  obtain ⟨pw, hb, t1, ht1, hh⟩ := h
  refine ⟨pw, fun u hu => ?_, t1, ?_, hh⟩
  · exact le_trans (hb u hu) (by unfold sleep; dsimp only; linarith)
  · exact le_trans ht1 (by unfold sleep; dsimp only; linarith)

theorem ledger_inv_record (cfg : RateLimitConfig) (hw : 0 < cfg.window_size)
    (n : ℤ) (st : RateLimitHandler) (log : List TokenUsage)
    (h : ledger_inv cfg.window_size st log) :
    ledger_inv cfg.window_size (record_usage cfg n st)
      (log ++ [⟨st.time, n⟩]) := by
  obtain ⟨pw, hb, t1, ht1, hh⟩ := h
  have pwf : (log.filter
      (fun u => decide (t1 - u.timestamp < cfg.window_size))).Pairwise
      (fun a b => a.timestamp ≤ b.timestamp) :=
    List.Pairwise.sublist (List.filter_sublist log) pw
  have hl0 : (st.usage_history ++ [(⟨st.time, n⟩ : TokenUsage)]).Pairwise
      (fun a b => a.timestamp ≤ b.timestamp) := by
    rw [List.pairwise_append]
    refine ⟨hh ▸ pwf, List.pairwise_singleton _ _, ?_⟩
    intro a ha b hb2
    rw [hh] at ha
    simp only [List.mem_singleton] at hb2
    subst hb2
    exact hb a (List.mem_of_mem_filter ha)
  have hyoung : decide (st.time - (⟨st.time, n⟩ : TokenUsage).timestamp <
      cfg.window_size) = true := by
    simp only [decide_eq_true_iff]
    simpa using hw
  have hc1 : cleanup_old_usage_list st.time cfg.window_size
      (st.usage_history ++ [(⟨st.time, n⟩ : TokenUsage)]) =
      (log ++ [(⟨st.time, n⟩ : TokenUsage)]).filter
        (fun u => decide (st.time - u.timestamp < cfg.window_size)) := by
    rw [cleanup_eq_filter _ _ _ hl0, List.filter_append, hh,
      filter_young_compose t1 st.time cfg.window_size ht1, List.filter_append]
  have hc1pw : ((log ++ [(⟨st.time, n⟩ : TokenUsage)]).filter
      (fun u => decide (st.time - u.timestamp < cfg.window_size))).Pairwise
      (fun a b => a.timestamp ≤ b.timestamp) := by
    refine List.Pairwise.sublist (List.filter_sublist _) ?_
    rw [List.pairwise_append]
    refine ⟨pw, List.pairwise_singleton _ _, ?_⟩
    intro a ha b hb2
    simp only [List.mem_singleton] at hb2
    subst hb2
    exact hb a ha
  refine ⟨?_, ?_, st.time, le_of_eq (record_usage_time cfg n st).symm, ?_⟩
  · rw [List.pairwise_append]
    refine ⟨pw, List.pairwise_singleton _ _, ?_⟩
    intro a ha b hb2
    simp only [List.mem_singleton] at hb2
    subst hb2
    exact hb a ha
  · intro u hu
    rw [record_usage_time]
    rcases List.mem_append.mp hu with h1 | h1
    · exact hb u h1
    · simp only [List.mem_singleton] at h1
      subst h1
      exact le_refl _
  · show cleanup_old_usage_list st.time cfg.window_size
        (cleanup_old_usage_list st.time cfg.window_size
          (st.usage_history ++ [(⟨st.time, n⟩ : TokenUsage)])) = _
    rw [hc1, cleanup_eq_filter _ _ _ hc1pw,
      filter_young_compose st.time st.time cfg.window_size le_rfl]

theorem run_ledger_inv (cfg : RateLimitConfig) (hw : 0 < cfg.window_size) :
    ∀ (ops : List LedgerOp) (st : RateLimitHandler) (log : List TokenUsage),
      (∀ d, LedgerOp.advance d ∈ ops → 0 ≤ d) →
      ledger_inv cfg.window_size st log →
      ledger_inv cfg.window_size (run_ledger cfg ops st)
        (log ++ ledger_log st.time ops) ∧
      (run_ledger cfg ops st).time = end_time st.time ops := by
  intro ops
  induction ops with
  | nil =>
    intro st log _ h
    simpa [run_ledger, ledger_log, end_time] using h
  | cons op rest ih =>
    intro st log hadv h
    cases op with
    | advance d =>
      have hd : 0 ≤ d := hadv d (by simp)
      have := ih (sleep d st) log
        (fun e he => hadv e (by simp [he]))
        (ledger_inv_sleep cfg.window_size d hd st log h)
      simpa [run_ledger, ledger_log, end_time, sleep] using this
    | record n =>
      have := ih (record_usage cfg n st) (log ++ [⟨st.time, n⟩])
        (fun e he => hadv e (by simp [he]))
        (ledger_inv_record cfg hw n st log h)
      rw [record_usage_time] at this
      simpa [run_ledger, ledger_log, end_time, List.append_assoc] using this

/-- Claim C3: for every sequence of record_usage calls at arbitrary
instants (a trace of non-negative clock advances interleaved with
records), get_current_usage returns exactly the sum of the token amounts
of the records whose timestamps lie within the last window_size seconds
of the current time: records of age at least window_size are never
counted. -/
theorem usage_window_sum (cfg : RateLimitConfig) (hw : 0 < cfg.window_size)
    (t0 : ℚ) (ops : List LedgerOp)
    (hadv : ∀ d, LedgerOp.advance d ∈ ops → 0 ≤ d) :
    (get_current_usage cfg (run_ledger cfg ops (fresh_handler t0))).1 =
      usage_sum ((ledger_log t0 ops).filter
        (fun u => decide (end_time t0 ops - u.timestamp < cfg.window_size))) := by
  have h0 : ledger_inv cfg.window_size (fresh_handler t0) [] :=
    ⟨List.Pairwise.nil, by simp, t0, le_refl _, by simp [fresh_handler]⟩
  obtain ⟨⟨pw, hb, t1, ht1, hh⟩, htime⟩ :=
    run_ledger_inv cfg hw ops (fresh_handler t0) [] hadv h0
  rw [List.nil_append] at pw hb hh
  show usage_sum (cleanup_old_usage_list
      (run_ledger cfg ops (fresh_handler t0)).time cfg.window_size
      (run_ledger cfg ops (fresh_handler t0)).usage_history) = _
  rw [hh, cleanup_eq_filter _ _ _
      (List.Pairwise.sublist (List.filter_sublist _) pw),
    filter_young_compose t1 _ cfg.window_size ht1, htime]
  rfl

/-- Demonstration trace for the C3 witness. -/
def demo_ops : List LedgerOp :=
  [LedgerOp.record 5, LedgerOp.advance 30, LedgerOp.record 7,
   LedgerOp.advance 40]

/-- Witness for C3 at a concrete trace: the record of 5 tokens is 70s
old and excluded, the record of 7 tokens is 40s old and counted. -/
theorem usage_window_sum_witness :
    ((0 : ℚ) < default_config3.window_size ∧
      (∀ d, LedgerOp.advance d ∈ demo_ops → 0 ≤ d)) ∧
    (get_current_usage default_config3
        (run_ledger default_config3 demo_ops (fresh_handler 0))).1 =
      usage_sum ((ledger_log 0 demo_ops).filter
        (fun u => decide (end_time 0 demo_ops - u.timestamp <
          default_config3.window_size))) ∧
    (get_current_usage default_config3
        (run_ledger default_config3 demo_ops (fresh_handler 0))).1 = 7 := by
  have hadv : ∀ d, LedgerOp.advance d ∈ demo_ops → 0 ≤ d := by
    intro d hd
    simp only [demo_ops, List.mem_cons, List.not_mem_nil, or_false] at hd
    rcases hd with h | h | h | h
    · simp at h
    · cases h; norm_num
    · simp at h
    · cases h; norm_num
  refine ⟨⟨by norm_num [default_config3], hadv⟩, ?_, ?_⟩
  · exact usage_window_sum default_config3
      (by norm_num [default_config3]) 0 demo_ops hadv
  · with_unfolding_all decide

theorem update_usage_patterns_time (cfg : RateLimitConfig)
    (st : RateLimitHandler) :
    (update_usage_patterns cfg st).time = st.time := rfl

theorem cleanup_idem (now w : ℚ) (l : List TokenUsage)
    (hpw : l.Pairwise (fun a b => a.timestamp ≤ b.timestamp)) :
    cleanup_old_usage_list now w (cleanup_old_usage_list now w l) =
      cleanup_old_usage_list now w l := by
  rw [cleanup_eq_filter now w l hpw,
    cleanup_eq_filter now w _ (List.Pairwise.sublist (List.filter_sublist _) hpw),
    filter_young_compose now now w le_rfl]

/-- Configuration of scenario A: 100 tokens per minute, 60 second window. -/
def cfg100 : RateLimitConfig := ⟨100, 60, 3, 1, 60, 2, 5, 60⟩

/-- Ledger state of scenario A: 60 then 50 tokens recorded at t = 0. -/
def scenario_a_state : RateLimitHandler :=
  record_usage cfg100 50 (record_usage cfg100 60 (fresh_handler 0))

/-- Claim C4 (amended): on a chronological ledger, wait_if_needed
suspends exactly when the pruned usage plus the requested tokens exceeds
tokens_per_minute and the pruned ledger is nonempty, in which case the
waited duration is window_size - (now - oldest pruned timestamp), after
which it re-prunes; it never waits when the pruned ledger is empty, even
if tokens alone exceeds the quota. In scenario A (60 then 50 tokens both
recorded at t = 0, tokens_per_minute 100, window 60), wait_if_needed(10)
at t = 0 suspends for exactly 60 seconds, after which both records have
age exactly 60 and are pruned, so get_current_usage returns 0, not 50 as
the claim states: see the counterexample. -/
theorem wait_if_needed_amended :
    (∀ (cfg : RateLimitConfig) (st : RateLimitHandler) (tokens : ℤ),
      0 < cfg.window_size →
      st.usage_history.Pairwise (fun a b => a.timestamp ≤ b.timestamp) →
      ((wait_if_needed cfg tokens st).1 ≠ 0 ↔
        (cfg.tokens_per_minute < usage_sum (cleanup_old_usage_list st.time
            cfg.window_size st.usage_history) + tokens ∧
          cleanup_old_usage_list st.time cfg.window_size st.usage_history ≠ [])) ∧
      (∀ u rest,
        cleanup_old_usage_list st.time cfg.window_size st.usage_history =
          u :: rest →
        cfg.tokens_per_minute < usage_sum (cleanup_old_usage_list st.time
          cfg.window_size st.usage_history) + tokens →
        (wait_if_needed cfg tokens st).1 =
          cfg.window_size - (st.time - u.timestamp))) ∧
    ((wait_if_needed cfg100 10 scenario_a_state).1 = 60 ∧
      (get_current_usage cfg100
        (wait_if_needed cfg100 10 scenario_a_state).2).1 = 0) := by
  constructor
  · intro cfg st tokens hw hpw
    have hidem : cleanup_old_usage_list st.time cfg.window_size
        (cleanup_old_usage_list st.time cfg.window_size st.usage_history) =
        cleanup_old_usage_list st.time cfg.window_size st.usage_history :=
      cleanup_idem st.time cfg.window_size st.usage_history hpw
    have hyoung : ∀ u ∈ cleanup_old_usage_list st.time cfg.window_size
        st.usage_history, st.time - u.timestamp < cfg.window_size := by
      intro u hu
      rw [cleanup_eq_filter st.time cfg.window_size st.usage_history hpw] at hu
      exact of_decide_eq_true (List.mem_filter.mp hu).2
    unfold wait_if_needed get_current_usage cleanup_old_usage
    dsimp only
    rw [update_usage_patterns_history, update_usage_patterns_time, hidem]
    constructor
    · by_cases hover : cfg.tokens_per_minute <
          usage_sum (cleanup_old_usage_list st.time cfg.window_size
            st.usage_history) + tokens
      · rw [if_pos hover]
        cases hp : cleanup_old_usage_list st.time cfg.window_size
            st.usage_history with
        | nil => simp [hp, hover]
        | cons u rest =>
          have hu : st.time - u.timestamp < cfg.window_size :=
            hyoung u (by rw [hp]; exact List.mem_cons_self u rest)
          have hwt : (0 : ℚ) < cfg.window_size - (st.time - u.timestamp) := by
            linarith
          have hmax : max 0 (cfg.window_size - (st.time - u.timestamp)) =
              cfg.window_size - (st.time - u.timestamp) :=
            max_eq_right hwt.le
          simp only [hp, hmax, if_pos hwt]
          constructor
          · intro _
            refine ⟨?_, by simp⟩
            rw [← hp]
            exact hover
          · intro _
            exact ne_of_gt hwt
      · rw [if_neg hover]
        constructor
        · intro hc
          exact absurd rfl hc
        · rintro ⟨hc, _⟩
          exact absurd hc hover
    · intro u rest hp hover
      rw [if_pos hover]
      have hu : st.time - u.timestamp < cfg.window_size :=
        hyoung u (by rw [hp]; exact List.mem_cons_self u rest)
      have hwt : (0 : ℚ) < cfg.window_size - (st.time - u.timestamp) := by
        linarith
      have hmax : max 0 (cfg.window_size - (st.time - u.timestamp)) =
          cfg.window_size - (st.time - u.timestamp) :=
        max_eq_right hwt.le
      simp only [hp, hmax, if_pos hwt]
  · constructor
    · with_unfolding_all decide
    · with_unfolding_all decide

/-- Counterexample to claim C4 as stated: after the scenario A wait, the
usage is 0, not 50, because both records were stamped at t = 0 and a
record of age exactly window_size is pruned. -/
theorem wait_if_needed_scenario_cex :
    (wait_if_needed cfg100 10 scenario_a_state).1 = 60 ∧
    (get_current_usage cfg100
      (wait_if_needed cfg100 10 scenario_a_state).2).1 = 0 ∧
    ((0 : ℤ) ≠ 50) := by
  refine ⟨?_, ?_, by norm_num⟩ <;> with_unfolding_all decide

/-- Witness for the amended C4 at the scenario A state. -/
theorem wait_if_needed_amended_witness :
    ((0 : ℚ) < cfg100.window_size ∧
      scenario_a_state.usage_history.Pairwise
        (fun a b => a.timestamp ≤ b.timestamp)) ∧
    ((wait_if_needed cfg100 10 scenario_a_state).1 ≠ 0 ↔
      (cfg100.tokens_per_minute < usage_sum (cleanup_old_usage_list
          scenario_a_state.time cfg100.window_size
          scenario_a_state.usage_history) + 10 ∧
        cleanup_old_usage_list scenario_a_state.time cfg100.window_size
          scenario_a_state.usage_history ≠ [])) := by
  have hpw : scenario_a_state.usage_history.Pairwise
      (fun a b => a.timestamp ≤ b.timestamp) := by
    have : scenario_a_state.usage_history =
        [⟨0, 60⟩, ⟨0, 50⟩] := by with_unfolding_all rfl
    rw [this]
    refine List.pairwise_cons.mpr ⟨?_, List.pairwise_singleton _ _⟩
    intro b hb
    simp only [List.mem_singleton] at hb
    subst hb
    norm_num
  exact ⟨⟨by norm_num [cfg100], hpw⟩,
    (wait_if_needed_amended.1 cfg100 scenario_a_state 10
      (by norm_num [cfg100]) hpw).1⟩

theorem loop_all_fail {α ε : Type} (cfg : RateLimitConfig)
    (scode : ε → Option ℤ) (f : ℕ → ε) (rid : String) :
    ∀ (fuel k : ℕ) (st : RateLimitHandler) (s : RetryStats),
      st.retry_stats rid = some s → s.retry_count ≤ cfg.max_retries →
      smart_retry_loop cfg scode
          (fun j => (OpOutcome.raise (f j) : OpOutcome α ε)) rid fuel k st
        = none ∨
      ∃ st2 : RateLimitHandler,
        smart_retry_loop cfg scode
            (fun j => (OpOutcome.raise (f j) : OpOutcome α ε)) rid fuel k st
          = some (Except.error (f (k + (cfg.max_retries - s.retry_count))), st2,
              k + (cfg.max_retries - s.retry_count) + 1) ∧
        ∃ s2 : RetryStats, st2.retry_stats rid = some s2 ∧
          s2.retry_count = cfg.max_retries + 1 ∧ s2.success_streak = 0 := by
  intro fuel
  induction fuel with
  | zero => intro k st s hs hrc; exact Or.inl rfl
  | succ n ih =>
    intro k st s hs hrc
    rw [smart_retry_loop]
    dsimp only
    rw [hs]
    simp only [Option.getD_some]
    rw [if_neg (not_lt.mpr hrc)]
    by_cases hch : (check_server_status cfg st).1 = true
    · rw [if_pos hch]
      cases hacq : wait_for_available_slot cfg n (check_server_status cfg st).2 with
      | none => exact Or.inl rfl
      | some st2 =>
        dsimp only
        have hst2 : st2.retry_stats rid = some s := by
          rw [wait_for_available_slot_retry_stats cfg n _ st2 hacq,
            check_server_status_retry_stats]
          exact hs
        have hst4 : (update_stats rid stats_on_failure
            (release_slot st2)).retry_stats rid = some (stats_on_failure s) := by
          rw [update_stats_at, release_slot_retry_stats, hst2]
          simp only [Option.getD_some]
        have hst5 : (record_error_opt cfg (scode (f k))
            (update_stats rid stats_on_failure
              (release_slot st2))).retry_stats rid =
            some (stats_on_failure s) := by
          rw [record_error_opt_retry_stats]
          exact hst4
        by_cases hex : cfg.max_retries < s.retry_count + 1
        · have heq0 : cfg.max_retries - s.retry_count = 0 := by omega
          rw [if_pos hex]
          refine Or.inr ⟨record_error_opt cfg (scode (f k))
            (update_stats rid stats_on_failure (release_slot st2)), ?_,
            stats_on_failure s, hst5, ?_, rfl⟩
          · simp [heq0]
          · have : s.retry_count = cfg.max_retries := by omega
            simp [stats_on_failure, this]
        · rw [if_neg hex]
          have hst7 : (update_stats rid
              (fun r => ⟨(sleep (calculate_smart_backoff cfg
                  (record_error_opt cfg (scode (f k))
                    (update_stats rid stats_on_failure (release_slot st2))) rid)
                  (record_error_opt cfg (scode (f k))
                    (update_stats rid stats_on_failure (release_slot st2)))).time,
                r.retry_count, r.backoff_factor, r.success_streak⟩)
              (sleep (calculate_smart_backoff cfg
                  (record_error_opt cfg (scode (f k))
                    (update_stats rid stats_on_failure (release_slot st2))) rid)
                (record_error_opt cfg (scode (f k))
                  (update_stats rid stats_on_failure
                    (release_slot st2))))).retry_stats rid =
              some ⟨(sleep (calculate_smart_backoff cfg
                  (record_error_opt cfg (scode (f k))
                    (update_stats rid stats_on_failure (release_slot st2))) rid)
                  (record_error_opt cfg (scode (f k))
                    (update_stats rid stats_on_failure (release_slot st2)))).time,
                s.retry_count + 1, s.backoff_factor, 0⟩ := by
            rw [update_stats_at, sleep_retry_stats, hst5]
            simp only [Option.getD_some]
            rfl
          have hrec := ih (k + 1) _ _ hst7
            (by show s.retry_count + 1 ≤ cfg.max_retries; omega)
          have hidx : (k + 1) + (cfg.max_retries - (s.retry_count + 1)) =
              k + (cfg.max_retries - s.retry_count) := by omega
          rcases hrec with h | ⟨st3, heq3, s3, hs3, hrc3, hss3⟩
          · exact Or.inl h
          · rw [hidx] at heq3
            exact Or.inr ⟨st3, heq3, s3, hs3, hrc3, hss3⟩
    · rw [if_neg hch]
      have hsl : (sleep 5 (check_server_status cfg st).2).retry_stats rid
          = some s := by
        rw [sleep_retry_stats, check_server_status_retry_stats]
        exact hs
      exact ih k _ s hsl hrc

theorem loop_fail_then_succeed {α ε : Type} (cfg : RateLimitConfig)
    (scode : ε → Option ℤ) (rid : String) :
    ∀ (fuel k : ℕ) (st : RateLimitHandler) (s : RetryStats) (F : ℕ)
      (ops : ℕ → OpOutcome α ε) (v : α),
      st.retry_stats rid = some s → s.retry_count + F ≤ cfg.max_retries →
      (∀ j, k ≤ j → j < k + F → ∃ e, ops j = OpOutcome.raise e) →
      ops (k + F) = OpOutcome.ok v →
      smart_retry_loop cfg scode ops rid fuel k st = none ∨
      ∃ st2 : RateLimitHandler,
        smart_retry_loop cfg scode ops rid fuel k st =
          some (Except.ok (some v), st2, k + F + 1) ∧
        ∃ s2 : RetryStats, st2.retry_stats rid = some s2 ∧
          s2.retry_count = 0 ∧
          s2.success_streak = (if F = 0 then s.success_streak + 1 else 1) := by
  intro fuel
  induction fuel with
  | zero => intro k st s F ops v hs hrc hfail hok; exact Or.inl rfl
  | succ n ih =>
    intro k st s F ops v hs hrc hfail hok
    rw [smart_retry_loop]
    dsimp only
    rw [hs]
    simp only [Option.getD_some]
    rw [if_neg (not_lt.mpr (by omega : s.retry_count ≤ cfg.max_retries))]
    by_cases hch : (check_server_status cfg st).1 = true
    · rw [if_pos hch]
      cases hacq : wait_for_available_slot cfg n (check_server_status cfg st).2 with
      | none => exact Or.inl rfl
      | some st2 =>
        dsimp only
        have hst2 : st2.retry_stats rid = some s := by
          rw [wait_for_available_slot_retry_stats cfg n _ st2 hacq,
            check_server_status_retry_stats]
          exact hs
        cases F with
        | zero =>
          simp only [Nat.add_zero] at hok
          rw [hok]
          refine Or.inr ⟨_, rfl, stats_on_success s, ?_, rfl, rfl⟩
          rw [release_slot_retry_stats, update_stats_at, hst2]
          simp only [Option.getD_some]
        | succ F2 =>
          obtain ⟨e, he⟩ := hfail k (le_refl k) (by omega)
          rw [he]
          dsimp only
          rw [if_neg (not_lt.mpr (by omega : s.retry_count + 1 ≤ cfg.max_retries))]
          have hst4 : (update_stats rid stats_on_failure
              (release_slot st2)).retry_stats rid = some (stats_on_failure s) := by
            rw [update_stats_at, release_slot_retry_stats, hst2]
            simp only [Option.getD_some]
          have hst5 : (record_error_opt cfg (scode e)
              (update_stats rid stats_on_failure
                (release_slot st2))).retry_stats rid =
              some (stats_on_failure s) := by
            rw [record_error_opt_retry_stats]
            exact hst4
          have hst7 : (update_stats rid
              (fun r => ⟨(sleep (calculate_smart_backoff cfg
                  (record_error_opt cfg (scode e)
                    (update_stats rid stats_on_failure (release_slot st2))) rid)
                  (record_error_opt cfg (scode e)
                    (update_stats rid stats_on_failure (release_slot st2)))).time,
                r.retry_count, r.backoff_factor, r.success_streak⟩)
              (sleep (calculate_smart_backoff cfg
                  (record_error_opt cfg (scode e)
                    (update_stats rid stats_on_failure (release_slot st2))) rid)
                (record_error_opt cfg (scode e)
                  (update_stats rid stats_on_failure
                    (release_slot st2))))).retry_stats rid =
              some ⟨(sleep (calculate_smart_backoff cfg
                  (record_error_opt cfg (scode e)
                    (update_stats rid stats_on_failure (release_slot st2))) rid)
                  (record_error_opt cfg (scode e)
                    (update_stats rid stats_on_failure (release_slot st2)))).time,
                s.retry_count + 1, s.backoff_factor, 0⟩ := by
            rw [update_stats_at, sleep_retry_stats, hst5]
            simp only [Option.getD_some]
            rfl
          have hfail2 : ∀ j, k + 1 ≤ j → j < (k + 1) + F2 →
              ∃ e2, ops j = OpOutcome.raise e2 := by
            intro j h1 h2
            exact hfail j (by omega) (by omega)
          have hok2 : ops ((k + 1) + F2) = OpOutcome.ok v := by
            rw [show (k + 1) + F2 = k + (F2 + 1) from by omega]
            exact hok
          have hrec := ih (k + 1) _ _ F2 ops v hst7
            (by show s.retry_count + 1 + F2 ≤ cfg.max_retries; omega)
            hfail2 hok2
          have hidx : (k + 1) + F2 = k + (F2 + 1) := by omega
          rcases hrec with h | ⟨st3, heq3, s3, hs3, hrc3, hss3⟩
          · exact Or.inl h
          · rw [hidx] at heq3
            refine Or.inr ⟨st3, heq3, s3, hs3, hrc3, ?_⟩
            rw [hss3]
            simp
    · rw [if_neg hch]
      have hsl : (sleep 5 (check_server_status cfg st).2).retry_stats rid
          = some s := by
        rw [sleep_retry_stats, check_server_status_retry_stats]
        exact hs
      exact ih k _ s F ops v hsl hrc hfail hok

/-- Classification of an operation outcome as smart_retry observes it:
success, failure with status code 529, or any other failure. -/
def op_class {α ε : Type} (scode : ε → Option ℤ) : OpOutcome α ε → ℕ
  | OpOutcome.ok _ => 0
  | OpOutcome.raise e => if scode e = some 529 then 1 else 2

theorem record_error_opt_not529 (cfg : RateLimitConfig) (c : Option ℤ)
    (st : RateLimitHandler) (h : c ≠ some 529) :
    record_error_opt cfg c st = st := by
  cases c with
  | none => rfl
  | some x =>
    show record_error cfg x st = st
    unfold record_error
    rw [if_neg]
    intro hx
    exact h (by rw [hx])

theorem loop_isNone_congr {α ε α2 ε2 : Type} (cfg : RateLimitConfig)
    (scode : ε → Option ℤ) (scode2 : ε2 → Option ℤ) (rid : String) :
    ∀ (fuel k : ℕ) (st : RateLimitHandler)
      (ops : ℕ → OpOutcome α ε) (ops2 : ℕ → OpOutcome α2 ε2),
      (∀ j, k ≤ j →
        j < k + (cfg.max_retries + 1 -
          ((st.retry_stats rid).getD ⟨0, 0, 1, 0⟩).retry_count) →
        op_class scode (ops j) = op_class scode2 (ops2 j)) →
      (smart_retry_loop cfg scode ops rid fuel k st).isNone =
        (smart_retry_loop cfg scode2 ops2 rid fuel k st).isNone := by
  intro fuel
  induction fuel with
  | zero => intro k st ops ops2 _; rfl
  | succ n ih =>
    intro k st ops ops2 hagree
    rw [smart_retry_loop, smart_retry_loop]
    dsimp only
    by_cases hg : cfg.max_retries <
        ((st.retry_stats rid).getD ⟨0, 0, 1, 0⟩).retry_count
    · rw [if_pos hg, if_pos hg]
      rfl
    · rw [if_neg hg, if_neg hg]
      by_cases hch : (check_server_status cfg st).1 = true
      · rw [if_pos hch, if_pos hch]
        cases hacq : wait_for_available_slot cfg n
            (check_server_status cfg st).2 with
        | none => rfl
        | some st2 =>
          dsimp only
          have hcls := hagree k (le_refl k) (by omega)
          cases hop : ops k with
          | ok a =>
            cases hop2 : ops2 k with
            | ok a2 => rfl
            | raise e2 =>
              rw [hop, hop2] at hcls
              simp only [op_class] at hcls
              split at hcls <;> exact absurd hcls (by decide)
          | raise e =>
            cases hop2 : ops2 k with
            | ok a2 =>
              rw [hop, hop2] at hcls
              simp only [op_class] at hcls
              split at hcls <;> exact absurd hcls (by decide)
            | raise e2 =>
              rw [hop, hop2] at hcls
              simp only [op_class] at hcls
              dsimp only
              by_cases hex : cfg.max_retries <
                  ((st.retry_stats rid).getD ⟨0, 0, 1, 0⟩).retry_count + 1
              · rw [if_pos hex, if_pos hex]
                rfl
              · rw [if_neg hex, if_neg hex]
                have hrec_state : record_error_opt cfg (scode e)
                    (update_stats rid stats_on_failure (release_slot st2)) =
                    record_error_opt cfg (scode2 e2)
                      (update_stats rid stats_on_failure (release_slot st2)) := by
                  by_cases h529 : scode e = some 529
                  · have h5292 : scode2 e2 = some 529 := by
                      by_cases h2 : scode2 e2 = some 529
                      · exact h2
                      · rw [if_pos h529, if_neg h2] at hcls
                        exact absurd hcls (by decide)
                    rw [h529, h5292]
                  · have h5292 : scode2 e2 ≠ some 529 := by
                      intro h2
                      rw [if_pos h2, if_neg h529] at hcls
                      exact absurd hcls (by decide)
                    rw [record_error_opt_not529 cfg _ _ h529,
                      record_error_opt_not529 cfg _ _ h5292]
                rw [hrec_state]
                apply ih
                intro j h1 h2
                apply hagree j (by omega)
                rw [update_stats_at, sleep_retry_stats,
                  record_error_opt_retry_stats, update_stats_at,
                  release_slot_retry_stats,
                  wait_for_available_slot_retry_stats cfg n _ st2 hacq,
                  check_server_status_retry_stats] at h2
                simp only [Option.getD_some, stats_on_failure] at h2
                have hrc2 : ((st.retry_stats rid).getD
                    ⟨0, 0, 1, 0⟩).retry_count ≤ cfg.max_retries := by omega
                omega
      · rw [if_neg hch, if_neg hch]
        apply ih
        intro j h1 h2
        apply hagree j (by omega)
        rw [sleep_retry_stats, check_server_status_retry_stats] at h2
        exact h2

/-- Status-code reader distinguishing only the 529 class. -/
def bool_code : Bool → Option ℤ := fun b => if b then some 529 else none

/-- Always-raising operation stream whose first four exceptions carry the
given 529-pattern. -/
def fail_pattern (b0 b1 b2 b3 : Bool) : ℕ → OpOutcome Unit Bool :=
  fun j => OpOutcome.raise
    (if j = 0 then b0 else if j = 1 then b1 else if j = 2 then b2 else b3)

/-- Operation stream raising three times with the given 529-pattern and
then succeeding. -/
def mix_pattern (b0 b1 b2 : Bool) : ℕ → OpOutcome Unit Bool :=
  fun j =>
    if j < 3 then
      OpOutcome.raise (if j = 0 then b0 else if j = 1 then b1 else b2)
    else OpOutcome.ok ()

/-- Handler state right after smart_retry creates the RetryStats entry
for request id req on a fresh handler started at time 0. -/
def init_state : RateLimitHandler :=
  { fresh_handler 0 with
    retry_stats := fun x =>
      if x = "req" then some (RetryStats.mk 0 0 1 0) else none }

theorem init_state_stats :
    init_state.retry_stats "req" = some (RetryStats.mk 0 0 1 0) := by
  simp [init_state]

theorem fail_pattern_terminates (b0 b1 b2 b3 : Bool) :
    (smart_retry_loop default_config3 bool_code (fail_pattern b0 b1 b2 b3)
      "req" 400 0 init_state).isNone = false := by
  cases b0 <;> cases b1 <;> cases b2 <;> cases b3 <;> with_unfolding_all decide

theorem mix_pattern_terminates (b0 b1 b2 : Bool) :
    (smart_retry_loop default_config3 bool_code (mix_pattern b0 b1 b2)
      "req" 400 0 init_state).isNone = false := by
  cases b0 <;> cases b1 <;> cases b2 <;> with_unfolding_all decide

/-- Claim C1: for every operation that raises on every invocation (f j is
the exception object raised by invocation j, scode its optional status
code), smart_retry on a fresh handler with max_retries 3 (remaining
constructor arguments at their defaults) and a fresh request id invokes
the operation exactly 4 times, then propagates the exception of the 4th
invocation unchanged, leaving the RetryState with retry_count 4 (and
success_streak 0); fuel 400 is enough for the loop to finish, whatever
the status codes, including 529 overload signals that detour through the
cooldown path. -/
theorem smart_retry_exhaustion {α ε : Type} (scode : ε → Option ℤ)
    (f : ℕ → ε) :
    ∃ st2 : RateLimitHandler,
      smart_retry default_config3 scode
          (fun j => (OpOutcome.raise (f j) : OpOutcome α ε)) "req" 400
          (fresh_handler 0) =
        some (Except.error (f 3), st2, 4) ∧
      ∃ s2 : RetryStats, st2.retry_stats "req" = some s2 ∧
        s2.retry_count = 4 ∧ s2.success_streak = 0 := by
  have hwrap : smart_retry default_config3 scode
      (fun j => (OpOutcome.raise (f j) : OpOutcome α ε)) "req" 400
      (fresh_handler 0) =
      smart_retry_loop default_config3 scode
        (fun j => (OpOutcome.raise (f j) : OpOutcome α ε)) "req" 400 0
        init_state := rfl
  have hagree : ∀ j, 0 ≤ j →
      j < 0 + (default_config3.max_retries + 1 -
        ((init_state.retry_stats "req").getD ⟨0, 0, 1, 0⟩).retry_count) →
      op_class scode ((fun j => (OpOutcome.raise (f j) : OpOutcome α ε)) j) =
        op_class bool_code
          (fail_pattern (decide (scode (f 0) = some 529))
            (decide (scode (f 1) = some 529))
            (decide (scode (f 2) = some 529))
            (decide (scode (f 3) = some 529)) j) := by
    intro j _ hj
    rw [init_state_stats] at hj
    simp only [Option.getD_some] at hj
    have hm3 : default_config3.max_retries = 3 := rfl
    have hj4 : j < 4 := by
      rw [hm3] at hj
      omega
    interval_cases j
    · by_cases h : scode (f 0) = some 529 <;>
        simp [op_class, fail_pattern, bool_code, h]
    · by_cases h : scode (f 1) = some 529 <;>
        simp [op_class, fail_pattern, bool_code, h]
    · by_cases h : scode (f 2) = some 529 <;>
        simp [op_class, fail_pattern, bool_code, h]
    · by_cases h : scode (f 3) = some 529 <;>
        simp [op_class, fail_pattern, bool_code, h]
  have hnone : (smart_retry_loop default_config3 scode
      (fun j => (OpOutcome.raise (f j) : OpOutcome α ε)) "req" 400 0
      init_state).isNone = false := by
    rw [loop_isNone_congr default_config3 scode bool_code "req" 400 0
      init_state _ _ hagree]
    exact fail_pattern_terminates _ _ _ _
  have hmain := @loop_all_fail α ε default_config3 scode f "req" 400 0
    init_state ⟨0, 0, 1, 0⟩ init_state_stats (by decide)
  rcases hmain with h | ⟨st2, heq, s2, hs2, hrc2, hss2⟩
  · rw [h] at hnone
    simp at hnone
  · refine ⟨st2, ?_, s2, hs2, ?_, hss2⟩
    · rw [hwrap, heq]
      norm_num [default_config3]
    · rw [hrc2]
      decide

/-- Claim C2: for every operation that fails exactly 3 times (f j is the
exception of invocation j) and then succeeds with value v on the 4th
attempt, smart_retry on a fresh handler with max_retries 3 (remaining
constructor arguments at their defaults) and a fresh request id returns
the success result after exactly 4 invocations, and the final RetryState
has retry_count 0 and success_streak 1; fuel 400 is enough whatever the
status codes of the three failures. -/
theorem smart_retry_recovery {α ε : Type} (scode : ε → Option ℤ)
    (f : ℕ → ε) (v : α) :
    ∃ st2 : RateLimitHandler,
      smart_retry default_config3 scode
          (fun j => if j < 3 then OpOutcome.raise (f j) else OpOutcome.ok v)
          "req" 400 (fresh_handler 0) =
        some (Except.ok (some v), st2, 4) ∧
      ∃ s2 : RetryStats, st2.retry_stats "req" = some s2 ∧
        s2.retry_count = 0 ∧ s2.success_streak = 1 := by
  have hwrap : smart_retry default_config3 scode
      (fun j => if j < 3 then OpOutcome.raise (f j) else OpOutcome.ok v)
      "req" 400 (fresh_handler 0) =
      smart_retry_loop default_config3 scode
        (fun j => if j < 3 then OpOutcome.raise (f j) else OpOutcome.ok v)
        "req" 400 0 init_state := rfl
  have hagree : ∀ j, 0 ≤ j →
      j < 0 + (default_config3.max_retries + 1 -
        ((init_state.retry_stats "req").getD ⟨0, 0, 1, 0⟩).retry_count) →
      op_class scode
        ((fun j => if j < 3 then OpOutcome.raise (f j) else OpOutcome.ok v) j) =
        op_class bool_code
          (mix_pattern (decide (scode (f 0) = some 529))
            (decide (scode (f 1) = some 529))
            (decide (scode (f 2) = some 529)) j) := by
    intro j _ hj
    rw [init_state_stats] at hj
    simp only [Option.getD_some] at hj
    have hm3 : default_config3.max_retries = 3 := rfl
    have hj4 : j < 4 := by
      rw [hm3] at hj
      omega
    interval_cases j
    · by_cases h : scode (f 0) = some 529 <;>
        simp [op_class, mix_pattern, bool_code, h]
    · by_cases h : scode (f 1) = some 529 <;>
        simp [op_class, mix_pattern, bool_code, h]
    · by_cases h : scode (f 2) = some 529 <;>
        simp [op_class, mix_pattern, bool_code, h]
    · simp [op_class, mix_pattern]
  have hnone : (smart_retry_loop default_config3 scode
      (fun j => if j < 3 then OpOutcome.raise (f j) else OpOutcome.ok v)
      "req" 400 0 init_state).isNone = false := by
    rw [loop_isNone_congr default_config3 scode bool_code "req" 400 0
      init_state _ _ hagree]
    exact mix_pattern_terminates _ _ _
  have hfail : ∀ j, 0 ≤ j → j < 0 + 3 →
      ∃ e, (fun j => if j < 3 then OpOutcome.raise (f j)
        else OpOutcome.ok v) j = OpOutcome.raise e := by
    intro j _ hj
    exact ⟨f j, by simp [show j < 3 from by omega]⟩
  have hok : (fun j => if j < 3 then OpOutcome.raise (f j)
      else OpOutcome.ok v) (0 + 3) = OpOutcome.ok v := by
    norm_num
  have hmain := @loop_fail_then_succeed α ε default_config3 scode "req" 400 0
    init_state ⟨0, 0, 1, 0⟩ 3
    (fun j => if j < 3 then OpOutcome.raise (f j) else OpOutcome.ok v) v
    init_state_stats (by decide) hfail hok
  rcases hmain with h | ⟨st2, heq, s2, hs2, hrc2, hss2⟩
  · rw [h] at hnone
    simp at hnone
  · refine ⟨st2, ?_, s2, hs2, hrc2, ?_⟩
    · rw [hwrap, heq]
    · rw [hss2]
      norm_num
